import Mathlib

/-!
Verification of the SeeFast data-canvas agent service.

This file gives a shallow embedding, in Lean, of the parts of the service
that the specification's testable claims are about:

* `app/adapters/swagger_parser.py` — OpenAPI catalog extraction;
* `app/registry/endpoint_registry.py` — the semantic endpoint registry;
* `app/services/cache.py` — the Redis/in-memory cache service;
* `app/agent/memory.py` — per-session conversation memory;
* `app/agent/tools.py` — the `call_api` tool;
* `app/agent/graph.py` — the FORMAT stage, widget auto-placement, the
  `should_continue` routing rule and the agent graph's control loop;
* `app/agent/core.py` — the `process_query` invocation boundary.

JSON values are modelled by the inductive type `Json` below, with numbers
restricted to integers (no claim under study depends on non-integer
numerics).  External collaborators — the HTTP client, the language-model
backend, the embedding backend, `json.dumps`/`json.loads`, `hashlib.md5`,
`uuid.uuid4` and wall-clock timestamps — are modelled as parameters of the
embedded functions, constrained only by hypotheses stating their documented
contracts.  Python exceptions are modelled with `Option`/`Except`: a
function that can raise returns `none`/`.error` there.
-/

namespace SeeFast

/-- JSON values as handled by Python's `json` module.  Numbers are modelled
as integers; note that in Python `bool` is a subclass of `int`, which
matters for `isinstance(v, (int, float))` checks (see `Json.isNumber`). -/
inductive Json where
  | null
  | bool (b : Bool)
  | int (n : Int)
  | str (s : String)
  | arr (elems : List Json)
  | obj (fields : List (String × Json))

/-- First-match lookup in an association list; Python `dict`s have unique
keys, so this models `d[k]` / `d.get(k)` on the dictionaries we build. -/
def jlookup (fields : List (String × α)) (k : String) : Option α :=
  match fields with
  | [] => none
  | (k1, v) :: rest => if k1 = k then some v else jlookup rest k

/-- Python `d.get(k, default)`. -/
def Json.getD (fields : List (String × Json)) (k : String) (d : Json) : Json :=
  (jlookup fields k).getD d

/-- Python `k in d` for a dictionary. -/
def hasKey (fields : List (String × Json)) (k : String) : Bool :=
  (jlookup fields k).isSome

/-- Python truthiness of a JSON value (`bool(v)`). -/
def Json.truthy : Json → Bool
  | .null => false
  | .bool b => b
  | .int n => n != 0
  | .str s => !s.isEmpty
  | .arr xs => !xs.isEmpty
  | .obj kvs => !kvs.isEmpty

/-- Python `isinstance(v, (int, float))`.  `bool` is a subclass of `int`
in Python, so booleans count as numbers here. -/
def Json.isNumber : Json → Bool
  | .bool _ => true
  | .int _ => true
  | _ => false

/-- Python `"sub" in s` on strings (substring test). -/
def strContains (s sub : String) : Bool :=
  (s.splitOn sub).length != 1

/-- Python `"x" in xs` on a list of JSON values, specialised to a string
left operand: Python equality `"x" == elem` holds only for equal strings. -/
def listHasStr (xs : List Json) (s : String) : Bool :=
  xs.any fun j => match j with | .str t => t = s | _ => false

mutual

/-- Python `repr()` of a JSON-like value (used by `str()` on non-strings).
String escaping (quote switching, backslash escapes) is simplified to plain
single quotes; no claim under study inspects the repr of a string that
would be escaped differently. -/
def pyRepr : Json → String
  | .null => "None"
  | .bool true => "True"
  | .bool false => "False"
  | .int n => toString n
  | .str s => "'" ++ s ++ "'"
  | .arr xs => "[" ++ pyReprItems xs ++ "]"
  | .obj kvs => "\x7b" ++ pyReprFields kvs ++ "\x7d"

/-- Comma-separated reprs of list elements. -/
def pyReprItems : List Json → String
  | [] => ""
  | [x] => pyRepr x
  | x :: y :: rest => pyRepr x ++ ", " ++ pyReprItems (y :: rest)

/-- Comma-separated reprs of dictionary entries. -/
def pyReprFields : List (String × Json) → String
  | [] => ""
  | [(k, v)] => "'" ++ k ++ "': " ++ pyRepr v
  | (k, v) :: e :: rest => "'" ++ k ++ "': " ++ pyRepr v ++ ", " ++ pyReprFields (e :: rest)

end

/-- Python `str()` of a JSON-like value: the identity on strings, `repr`
otherwise. -/
def pyStr : Json → String
  | .str s => s
  | j => pyRepr j

/-- Effectful map in the `Option` monad (a Python `for` loop building a
list, where the body may raise): stops at the first `none`. -/
def optionMapList (f : α → Option β) : List α → Option (List β)
  | [] => some []
  | a :: l => do
      let b ← f a
      let bs ← optionMapList f l
      pure (b :: bs)

/-- Python slice `xs[-n:]`: the suffix of the `n` most recent elements. -/
def lastN (n : Nat) (xs : List α) : List α :=
  xs.drop (xs.length - n)

/-- Python `d[k] = v` on a dictionary modelled as an association list:
overwrite in place when the key exists, append otherwise. -/
def assocSet (m : List (String × α)) (k : String) (v : α) : List (String × α) :=
  match m with
  | [] => [(k, v)]
  | (k1, v1) :: rest => if k1 = k then (k, v) :: rest else (k1, v1) :: assocSet rest k v

/-!  Swagger parser (`app/adapters/swagger_parser.py`).

`SwaggerParser.load` fetches a document over HTTP (external), derives the
base URL and extracts `Endpoint` records from the `paths` section.  A value
of `none` models a Python exception (fetch failure, or a `TypeError` /
`AttributeError` / `IndexError` raised while traversing a document whose
shape the code does not handle); per the spec this surfaces as a fatal load
error and the catalog is not partially populated.  -/

/-- The `EndpointParameter` dataclass.  Python stores whatever value
`param.get(...)` returned, uncoerced, so every field carries a raw JSON
value; the declared defaults are `""`, `"query"`, `False`, `"string"`,
`""`. -/
structure EndpointParameter where
  name : Json
  location : Json
  required : Json
  param_type : Json
  description : Json

/-- The `Endpoint` dataclass.  `id`, `path` and `method` are genuine
strings (`id` comes from an f-string, `path`/`method` are JSON object
keys); the remaining scalar fields store raw JSON values from `.get`. -/
structure Endpoint where
  id : String
  path : String
  method : String
  summary : Json
  description : Json
  tags : Json
  parameters : List EndpointParameter
  response_schema : Option Json

/-- Python `str.upper()` (ASCII case mapping suffices for HTTP verbs);
written over the character list so that it reduces definitionally. -/
def pyUpper (s : String) : String :=
  String.mk (s.data.map Char.toUpper)

/-- One entry of the operation's `parameters` array.  Python calls
`param.get` on it, which raises `AttributeError` unless it is a dict. -/
def extractParam (p : Json) : Option EndpointParameter :=
  match p with
  | .obj kvs => some
      { name := Json.getD kvs "name" (.str "")
        location := Json.getD kvs "in" (.str "query")
        required := Json.getD kvs "required" (.bool false)
        param_type := Json.getD kvs "type" (.str "string")
        description := Json.getD kvs "description" (.str "") }
  | _ => none

/-- The loop `for param in details.get("parameters", [])`.  Python iterates
the value; shapes other than a list fall outside the modelled fragment (the
common non-list shapes make the loop body raise). -/
def extractParams (ps : Json) : Option (List EndpointParameter) :=
  match ps with
  | .arr xs => optionMapList extractParam xs
  | _ => none

/-- The response-schema extraction: `responses = details.get("responses",
dict())`; if `"200" in responses`, `response_schema =
responses["200"].get("schema", dict())`, else it stays `None`.  Note the
default of the inner `.get` is the *empty dict*, not `None`. -/
def get200Schema (responses : Json) : Option (Option Json) :=
  match responses with
  | .obj kvs =>
      match jlookup kvs "200" with
      | none => some none
      | some r200 =>
          match r200 with
          | .obj r => some (some (Json.getD r "schema" (.obj [])))
          | _ => none
  | _ => none

/-- The HTTP verbs kept by `_extract_endpoints`. -/
def supportedMethods : List String :=
  ["get", "post", "put", "delete", "patch"]

/-- The body of the inner loop of `_extract_endpoints` for one `(method,
details)` entry that passed the supported-verb filter. -/
def extractOne (path method : String) (details : Json) : Option Endpoint :=
  match details with
  | .obj d => do
      let params ← extractParams (Json.getD d "parameters" (.arr []))
      let schema ← get200Schema (Json.getD d "responses" (.obj []))
      pure
        { id := pyUpper method ++ "_" ++ path
          path := path
          method := pyUpper method
          summary := Json.getD d "summary" (.str "")
          description := Json.getD d "description" (.str "")
          tags := Json.getD d "tags" (.arr [])
          parameters := params
          response_schema := schema }
  | _ => none

/-- The inner loop `for method, details in methods.items()`: keys outside
the supported verb list are skipped *before* `details` is inspected (this
is what lets a shared `parameters` block under a path pass harmlessly). -/
def extractFromPathItem (path : String) : List (String × Json) → Option (List Endpoint)
  | [] => some []
  | (method, details) :: rest =>
      if supportedMethods.contains method then do
        let e ← extractOne path method details
        let tail ← extractFromPathItem path rest
        pure (e :: tail)
      else
        extractFromPathItem path rest

/-- The outer loop `for path, methods in paths.items()`; a non-dict path
item makes `methods.items()` raise. -/
def extractPaths : List (String × Json) → Option (List Endpoint)
  | [] => some []
  | (path, item) :: rest =>
      match item with
      | .obj methods => do
          let here ← extractFromPathItem path methods
          let tail ← extractPaths rest
          pure (here ++ tail)
      | _ => none

/-- `SwaggerParser._extract_endpoints`: `paths = self.spec.get("paths",
dict())`, then the nested loops above. -/
def extractEndpoints (spec : Json) : Option (List Endpoint) :=
  match spec with
  | .obj top =>
      match Json.getD top "paths" (.obj []) with
      | .obj paths => extractPaths paths
      | _ => none
  | _ => none

/-- Base-URL derivation in `SwaggerParser.load`:
`f"{schemes[0]}://{host}{base_path}"` with defaults `""`, `""`,
`["https"]`; `schemes[0]` on an empty list raises `IndexError`. -/
def extractBaseUrl (spec : Json) : Option String :=
  match spec with
  | .obj top =>
      let host := Json.getD top "host" (.str "")
      let basePath := Json.getD top "basePath" (.str "")
      match Json.getD top "schemes" (.arr [.str "https"]) with
      | .arr (s0 :: _) => some (pyStr s0 ++ "://" ++ pyStr host ++ pyStr basePath)
      | _ => none
  | _ => none

/-- The state of a loaded `SwaggerParser`. -/
structure ParserState where
  swagger_url : String
  spec : Json
  base_url : String
  endpoints : List Endpoint

/-- `SwaggerParser.load`, given the JSON document that the external HTTP
fetch produced (`none` models a network or JSON-decode failure, which
`load` re-raises to its caller). -/
def parserLoad (url : String) (fetched : Option Json) : Option ParserState := do
  let spec ← fetched
  let base ← extractBaseUrl spec
  let eps ← extractEndpoints spec
  pure { swagger_url := url, spec := spec, base_url := base, endpoints := eps }

/-- `SwaggerParser.get_full_url`. -/
def getFullUrl (ps : ParserState) (e : Endpoint) : String :=
  ps.base_url ++ e.path

/-!  Endpoint registry (`app/registry/endpoint_registry.py`).

The ChromaDB collection is modelled by the list of indexed endpoint ids
(the embedded documents and metadata feed the external vector store and
are only read back by `search`, which no settled theorem needs beyond the
fact that its candidates come from the collection).  The crucial pieces of
state are the collection contents, the `_endpoints_cache` dict and the
`_parser` field.  -/

/-- The mutable state of an `EndpointRegistry` instance. -/
structure RegState where
  collection : List String
  endpoints_cache : List (String × Endpoint)
  parser : Option ParserState

/-- A freshly constructed `EndpointRegistry`: empty collection (created by
`get_or_create_collection`), empty `_endpoints_cache`, no parser. -/
def registryInit : RegState :=
  { collection := [], endpoints_cache := [], parser := none }

/-- `EndpointRegistry.load_swagger`: parse the document, delete and
recreate the collection, add every new endpoint's id (with its searchable
text and metadata) to the collection, and insert every new endpoint into
`_endpoints_cache` — which is *never cleared*, so ids from earlier loads
survive in it.  Returns the new state and the endpoint count; `none`
models the parse step raising. -/
def loadSwagger (st : RegState) (url : String) (fetched : Option Json) :
    Option (RegState × Nat) := do
  let ps ← parserLoad url fetched
  let eps := ps.endpoints
  pure
    ({ collection := eps.map (·.id)
       endpoints_cache := eps.foldl (fun m e => assocSet m e.id e) st.endpoints_cache
       parser := some ps },
     eps.length)

/-- The JSON dict built for one parameter inside
`EndpointRegistry.get_details`. -/
def paramJson (p : EndpointParameter) : Json :=
  .obj [("name", p.name), ("in", p.location), ("required", p.required),
        ("type", p.param_type), ("description", p.description)]

/-- `EndpointRegistry.get_details`: look the id up in `_endpoints_cache`
(a dataclass instance is always truthy, so `if not endpoint` only fires
for `None`) and build the detail dict. -/
def getDetails (st : RegState) (endpoint_id : String) : Option Json :=
  match jlookup st.endpoints_cache endpoint_id with
  | none => none
  | some e => some (.obj
      [("id", .str e.id), ("path", .str e.path), ("method", .str e.method),
       ("summary", e.summary), ("description", e.description), ("tags", e.tags),
       ("full_url", .str (match st.parser with
                          | some ps => getFullUrl ps e
                          | none => "")),
       ("parameters", .arr (e.parameters.map paramJson))])

/-!  Cache service (`app/services/cache.py`).

The Redis store is modelled as a string-to-string map holding the
serialized values; the in-memory fallback maps keys to `(value, expiry)`
pairs whose expiry slot is always written as `0` and never read.  The
stdlib serializers `json.dumps` / `json.loads` are external collaborators
and appear as the parameters `dumps` / `loads`; the theorems assume only
their documented round-trip contract.  TTLs are enforced by the backing
store and no theorem lets time pass, so the model keeps no clock.  -/

/-- The state of a `CacheService` instance.  `connected` is fixed at
construction time (`_connect` runs only in `__init__`). -/
structure CacheState where
  connected : Bool
  redis : List (String × String)
  memory : List (String × (Json × Int))

/-- `CacheService.get`: when connected, read the serialized value from
Redis; a missing key or empty string is falsy and a `json.loads` failure
is swallowed by the `except`, both falling through to the in-memory map;
otherwise go straight to the in-memory map. -/
def cacheGet (loads : String → Option Json) (st : CacheState) (key : String) :
    Option Json :=
  let fromMemory :=
    match jlookup st.memory key with
    | some (v, _) => some v
    | none => none
  if st.connected then
    match jlookup st.redis key with
    | some s =>
        if s.isEmpty then fromMemory
        else
          match loads s with
          | some v => some v
          | none => fromMemory
    | none => fromMemory
  else fromMemory

/-- The configured default TTL (`settings.redis_ttl`, default 300). -/
def redisTtlSetting : Nat := 300

/-- `CacheService.set`: `ttl = ttl or settings.redis_ttl` (note `or`, so a
zero TTL also falls back to the default), then `setex` with the serialized
value when connected, else store `(value, 0)` in the in-memory map.
Returns the new state and the `True` result. -/
def cacheSet (dumps : Json → String) (st : CacheState) (key : String)
    (value : Json) (ttl : Option Nat) : CacheState × Bool :=
  let _effectiveTtl := match ttl with
    | some n => if n = 0 then redisTtlSetting else n
    | none => redisTtlSetting
  if st.connected then
    ({ st with redis := assocSet st.redis key (dumps value) }, true)
  else
    ({ st with memory := assocSet st.memory key (value, 0) }, true)

/-!  Conversation memory (`app/agent/memory.py`).

A `ConversationMemory` holds a session id and reads/writes the shared
`CacheService`; its state therefore lives inside `CacheState`.  The turn
timestamp comes from `datetime.now()` (external) and is a parameter.  -/

/-- The cache key `f"session:{session_id}:history"`. -/
def historyKey (session_id : String) : String :=
  "session:" ++ session_id ++ ":history"

/-- `ConversationMemory.get_history`: `self.cache.get(key) or []`.  The
stored value is always a JSON array (only `add_turn` writes this key); a
missing or falsy value gives the empty list. -/
def getHistory (loads : String → Option Json) (st : CacheState)
    (session_id : String) : List Json :=
  match cacheGet loads st (historyKey session_id) with
  | some j => if j.truthy then (match j with | .arr xs => xs | _ => []) else []
  | none => []

/-- The turn dict built by `ConversationMemory.add_turn`; note
`widgets or []` replaces a falsy widget value by the empty list. -/
def mkTurn (user assistant : String) (widgets : Json) (timestamp : String) : Json :=
  .obj [("user", .str user), ("assistant", .str assistant),
        ("widgets", if widgets.truthy then widgets else .arr []),
        ("timestamp", .str timestamp)]

/-- `ConversationMemory.add_turn`: append the new turn to the history,
keep only the last 20 entries (`history[-20:]`), and store the result
back with a one-hour TTL. -/
def addTurn (dumps : Json → String) (loads : String → Option Json)
    (st : CacheState) (session_id : String) (user assistant : String)
    (widgets : Json) (timestamp : String) : CacheState :=
  let turn := mkTurn user assistant widgets timestamp
  let history := getHistory loads st session_id ++ [turn]
  let history := lastN 20 history
  (cacheSet dumps st (historyKey session_id) (.arr history) (some 3600)).1

/-- `ConversationMemory.get_context_messages`: the last `limit` turns,
each expanded into a user/assistant content pair (add_turn only ever
stores string contents, so the string extraction below is exact on every
reachable history). -/
def getContextMessages (loads : String → Option Json) (st : CacheState)
    (session_id : String) (limit : Nat) : List (String × String) :=
  (lastN limit (getHistory loads st session_id)).map fun turn =>
    match turn with
    | .obj kvs =>
        ((match Json.getD kvs "user" .null with | .str s => s | _ => ""),
         (match Json.getD kvs "assistant" .null with | .str s => s | _ => ""))
    | _ => ("", "")

/-!  Tools (`app/agent/tools.py`): the `call_api` tool.  -/

/-- The outcome of the outbound `httpx` request: either the client raised
(timeout, connection error, ...) or a response arrived with a status code,
a text body, and the result of `response.json()` (`.error` when the body
is not valid JSON, which makes `response.json()` raise). -/
inductive HttpOutcome where
  | exn (msg : String)
  | resp (status : Nat) (text : String) (body : Except String Json)

/-- `CacheService.make_key` as used by `call_api`: the parts are already
strings, so `str(p)` is the identity. -/
def makeKey (parts : List String) : String :=
  "seefast:" ++ String.intercalate ":" parts

/-- Python `dict(**a, **b)`-style merge `{**path_params, **query_params}`:
keys of `a` first (values overridden by `b` where shared), then the keys
only in `b`, in order. -/
def mergeDicts (a b : List (String × Json)) : List (String × Json) :=
  a.map (fun kv => match jlookup b kv.1 with
                   | some v => (kv.1, v)
                   | none => kv) ++
  b.filter (fun kv => (jlookup a kv.1).isNone)

/-- The cache key computed by `call_api`:
`cache.make_key("api", endpoint_id, cache.hash_params({**path_params, **query_params}))`. -/
def callApiKey (hashParams : List (String × Json) → String)
    (endpoint_id : String) (path_params query_params : List (String × Json)) : String :=
  makeKey ["api", endpoint_id, hashParams (mergeDicts path_params query_params)]

/-- The non-cached tail of `call_api`: perform the request, turn any
status at or above 400 into an `error`/`message` object with the body
truncated to 200 characters, turn a raised exception (including a JSON
decode failure in `response.json()`) into a `Request failed` object, and
otherwise cache the payload and return it tagged `cached: False`. -/
def callApiFresh (dumps : Json → String) (cst : CacheState)
    (cache_key : String) (http : HttpOutcome) : Json × CacheState :=
  match http with
  | .exn m => (.obj [("error", .str ("Request failed: " ++ m))], cst)
  | .resp status text body =>
      if status ≥ 400 then
        (.obj [("error", .str ("API returned " ++ toString status)),
               ("message", .str (text.take 200))], cst)
      else
        match body with
        | .error m => (.obj [("error", .str ("Request failed: " ++ m))], cst)
        | .ok data =>
            ((.obj [("data", data), ("cached", .bool false)]),
             (cacheSet dumps cst cache_key data none).1)

/-- The `call_api` tool.  `hashParams` models `CacheService.hash_params`
(an MD5 digest, external); `http` models the outbound request the tool
would perform on a cache miss.  Resolution failure returns an explicit
error object; a *truthy* cached payload is returned tagged `cached: True`;
everything else falls through to `callApiFresh`. -/
def callApi (hashParams : List (String × Json) → String)
    (dumps : Json → String) (loads : String → Option Json)
    (reg : RegState) (cst : CacheState) (endpoint_id : String)
    (path_params query_params : List (String × Json))
    (http : HttpOutcome) : Json × CacheState :=
  match getDetails reg endpoint_id with
  | none => (.obj [("error", .str ("Endpoint " ++ endpoint_id ++ " not found"))], cst)
  | some details =>
      let _url := path_params.foldl
        (fun u kv => u.replace ("\x7b" ++ kv.1 ++ "\x7d") (pyStr kv.2))
        (pyStr (match details with
                | .obj kvs => Json.getD kvs "full_url" .null
                | _ => .null))
      let cache_key := callApiKey hashParams endpoint_id path_params query_params
      match cacheGet loads cst cache_key with
      | some v =>
          if v.truthy then (.obj [("data", v), ("cached", .bool true)], cst)
          else callApiFresh dumps cst cache_key http
      | none => callApiFresh dumps cst cache_key http

/-!  Agent graph (`app/agent/graph.py`): messages, the FORMAT stage with
widget auto-placement, the `should_continue` routing rule, and the
compiled graph's control loop.  -/

/-- One tool-call request emitted by the model.  The control loop never
inspects a request beyond its presence, so it is opaque here. -/
structure ToolCallReq where
  payload : String

/-- LangChain messages as the graph sees them.  A tool message carries
its content as parsed by `json.loads` (`none`: the content was not valid
JSON, so the parse raised `JSONDecodeError`, which the FORMAT loop
catches and skips). -/
inductive Msg where
  | system (content : String)
  | human (content : String)
  | ai (content : String) (tool_calls : List ToolCallReq)
  | tool (content : Option Json)

/-- A widget's grid position. -/
structure WidgetPos where
  column : Nat
  row : Nat
  width : Nat
  height : Nat
deriving DecidableEq

/-- A widget dict as built by the FORMAT stage.  `component`, `data` and
`config` hold raw JSON values (the pre-formatted branch copies them from
the tool result unvalidated). -/
structure Widget where
  id : String
  component : Json
  position : WidgetPos
  data : Json
  config : Json

/-- One table cell in `auto_format_data`: `str(item.get(c, ""))[:50]`.
`item.get` raises `AttributeError` (modelled by `none`) unless the row
item is a dict. -/
def tableCell (c : String) (item : Json) : Option String :=
  match item with
  | .obj kvs => some ((pyStr (Json.getD kvs c (.str ""))).take 50)
  | _ => none

/-- `auto_format_data`.  A nonempty list whose first element is a dict
becomes a full-width `Table` over the first 10 keys and first 20 rows
(raising, uncaught by the FORMAT loop's `except`, if a kept row item is
not a dict); a dict with numeric values becomes a `BarChart`; any other
dict becomes a 15-entry property `Table`; everything else yields no
widget.  `widget_id` stands for the `uuid4`-derived id generated at the
top of the function. -/
def autoFormatData (widget_id : String) (data : Json) (row col : Nat) :
    Except String (Option Widget) :=
  match data with
  | .arr (Json.obj kvs0 :: rest) =>
      let columns := (kvs0.map (·.1)).take 10
      match optionMapList
          (fun item => optionMapList (fun c => tableCell c item) columns)
          ((Json.obj kvs0 :: rest).take 20) with
      | some rows =>
          .ok (some
            { id := widget_id, component := .str "Table"
              position := { column := 1, row := row, width := 12, height := 2 }
              data := .obj [("columns", .arr (columns.map .str)),
                            ("rows", .arr (rows.map fun r => .arr (r.map .str)))]
              config := .obj [("title", .str "Results")] })
      | none => .error "AttributeError"
  | .obj kvs =>
      let numericItems := kvs.filter fun kv => kv.2.isNumber
      if !numericItems.isEmpty then
        .ok (some
          { id := widget_id, component := .str "BarChart"
            position := { column := col, row := row, width := 6, height := 2 }
            data := .obj [("labels", .arr (numericItems.map fun kv => .str kv.1)),
                          ("values", .arr (numericItems.map (·.2)))]
            config := .obj [("title", .str "Distribution")] })
      else
        .ok (some
          { id := widget_id, component := .str "Table"
            position := { column := 1, row := row, width := 12, height := 2 }
            data := .obj [("columns", .arr [.str "Property", .str "Value"]),
                          ("rows", .arr ((kvs.take 15).map fun kv =>
                            .arr [.str kv.1, .str ((pyStr kv.2).take 100)]))]
            config := .obj [("title", .str "Details")] })
  | _ => .ok none

/-- The accumulator threaded through the FORMAT loop: widgets collected so
far, the placement cursor (`widget_row`, `widget_col`, both starting at
1), and the position in the external `uuid4` id stream. -/
structure FmtAcc where
  widgets : List Widget
  widget_row : Nat
  widget_col : Nat
  next_id : Nat

/-- The body of the FORMAT loop for one tool message, operating on the
parsed content.  Faithfully mirrors the Python control flow, including its
exception behaviour: `json.loads` failures, `KeyError`s and `TypeError`s
are caught by the surrounding `except` and skip the message, while the
`AttributeError`s raised by `.get` on a non-dict (in the raw-data branch
and inside `auto_format_data`) are *not* caught and abort the node. -/
def fmtStep (ids : Nat → String) (acc : FmtAcc) (content : Option Json) :
    Except String FmtAcc :=
  match content with
  | none => .ok acc
  | some j =>
    if !j.truthy then .ok acc
    else
      match j with
      | .obj kvs =>
          if hasKey kvs "component" && hasKey kvs "data" then
            let w : Widget :=
              { id := ids acc.next_id
                component := Json.getD kvs "component" .null
                position := { column := acc.widget_col, row := acc.widget_row,
                              width := 6, height := 2 }
                data := Json.getD kvs "data" .null
                config := Json.getD kvs "config" (.obj []) }
            let col1 := acc.widget_col + 6
            .ok { widgets := acc.widgets ++ [w]
                  widget_col := if col1 > 12 then 1 else col1
                  widget_row := if col1 > 12 then acc.widget_row + 2 else acc.widget_row
                  next_id := acc.next_id + 1 }
          else if hasKey kvs "data" && !(Json.getD kvs "error" .null).truthy then
            match autoFormatData (ids acc.next_id) (Json.getD kvs "data" .null)
                acc.widget_row acc.widget_col with
            | .error e => .error e
            | .ok none => .ok { acc with next_id := acc.next_id + 1 }
            | .ok (some w) =>
                let col1 := acc.widget_col + w.position.width
                .ok { widgets := acc.widgets ++ [w]
                      widget_col := if col1 > 12 then 1 else col1
                      widget_row := if col1 > 12 then acc.widget_row + w.position.height
                                    else acc.widget_row
                      next_id := acc.next_id + 1 }
          else .ok acc
      | .arr xs =>
          if listHasStr xs "component" && listHasStr xs "data" then
            .ok acc
          else if listHasStr xs "data" then
            .error "AttributeError"
          else .ok acc
      | .str s =>
          if strContains s "component" && strContains s "data" then
            .ok acc
          else if strContains s "data" then
            .error "AttributeError"
          else .ok acc
      | _ => .ok acc

/-- The FORMAT loop over the whole message sequence: only tool messages
are processed. -/
def formatFold (ids : Nat → String) : List Msg → FmtAcc → Except String FmtAcc
  | [], acc => .ok acc
  | .tool c :: rest, acc =>
      match fmtStep ids acc c with
      | .ok acc1 => formatFold ids rest acc1
      | .error e => .error e
  | _ :: rest, acc => formatFold ids rest acc

/-- The scan for the final text: the content of the last AI message that
carries no tool calls, with a static fallback. -/
def finalMessageFrom : List Msg → String
  | [] => "Here's what I found for you."
  | .ai c [] :: _ => c
  | _ :: rest => finalMessageFrom rest

/-- `format_output_node`: run the FORMAT loop from cursor `(1, 1)` and
pick the final message by scanning the messages in reverse. -/
def formatOutputNode (ids : Nat → String) (msgs : List Msg) :
    Except String (List Widget × String) :=
  match formatFold ids msgs { widgets := [], widget_row := 1, widget_col := 1, next_id := 0 } with
  | .error e => .error e
  | .ok acc => .ok (acc.widgets, finalMessageFrom msgs.reverse)

/-- The test `hasattr(last_message, "tool_calls") and last_message.tool_calls`
on the most recent message: only AI messages carry tool calls.  (The graph
invokes the test only on nonempty sequences; the empty case is vacuous.) -/
def lastHasToolCalls (msgs : List Msg) : Bool :=
  match msgs.getLast? with
  | some (.ai _ tcs) => !tcs.isEmpty
  | _ => false

/-- The two outgoing edges of the agent node. -/
inductive Route where
  | tools
  | fmt
deriving DecidableEq

/-- `should_continue`: route to the tools node exactly when the last
message requests tool calls, else to the format node. -/
def shouldContinue (msgs : List Msg) : Route :=
  if lastHasToolCalls msgs then .tools else .fmt

/-- The nodes visited by one run of the compiled graph (`stop` is END). -/
inductive GNode where
  | agent
  | tools
  | fmt
  | stop
deriving DecidableEq

/-- One run of the compiled graph for a scripted reasoning backend.  The
script lists the AI responses the backend returns on successive
invocations; `execTool` gives the (parsed) content of the tool message the
`ToolNode` produces for a request.  The wiring follows
`create_agent_graph`: entry at the agent node; a conditional edge routes
per `should_continue`; the tools node executes every requested call in
order, appends the results as tool messages and returns to the agent
node; the format node runs `format_output_node` and the graph ends.
Returns the visited nodes and the final output; `none` models the run
raising (script exhausted while the loop still asks the backend, or the
format node raising). -/
def runGraphScript (ids : Nat → String) (execTool : ToolCallReq → Option Json) :
    List (String × List ToolCallReq) → List Msg →
    Option (List GNode × List Msg × List Widget × String)
  | [], _ => none
  | (c, tcs) :: rest, msgs =>
      let msgs1 := msgs ++ [.ai c tcs]
      match shouldContinue msgs1 with
      | .tools =>
          let msgs2 := msgs1 ++ tcs.map fun tc => Msg.tool (execTool tc)
          match runGraphScript ids execTool rest msgs2 with
          | some (trace, out) => some (.agent :: .tools :: trace, out)
          | none => none
      | .fmt =>
          match formatOutputNode ids msgs1 with
          | .ok (ws, fm) => some ([.agent, .fmt, .stop], msgs1, ws, fm)
          | .error _ => none

/-!  Invocation boundary (`app/agent/core.py`): `process_query`.  -/

/-- A widget serialized back to its wire dict (as stored into
conversation memory by `add_turn`). -/
def widgetJson (w : Widget) : Json :=
  .obj [("id", .str w.id), ("component", w.component),
        ("position", .obj [("column", .int w.position.column),
                           ("row", .int w.position.row),
                           ("width", .int w.position.width),
                           ("height", .int w.position.height)]),
        ("data", w.data), ("config", w.config)]

/-- The message sequence `process_query` seeds the graph with: the system
prompt, up to the last 3 remembered turns as alternating human/AI pairs,
then the new user message.  `sysPrompt` is the content of
`prompts.SYSTEM_PROMPT` (never branched on). -/
def seedMessages (loads : String → Option Json) (st : CacheState)
    (sysPrompt session_id message : String) : List Msg :=
  Msg.system sysPrompt ::
    ((getContextMessages loads st session_id 3).foldr
      (fun p acc => Msg.human p.1 :: Msg.ai p.2 [] :: acc)
      [Msg.human message])

/-- `process_query`.  The graph run (and everything inside it) is
abstracted by `runGraph`, applied to the seeded messages; `.error e`
models any exception raised inside the `try` block.  On success the turn
is persisted to conversation memory and `(message, widgets)` returned; on
an exception the boundary answers with the error text and an empty widget
list, leaving memory untouched. -/
def processQuery (dumps : Json → String) (loads : String → Option Json)
    (runGraph : List Msg → Except String (String × List Widget))
    (st : CacheState) (sysPrompt session_id message timestamp : String) :
    (String × List Widget) × CacheState :=
  let messages := seedMessages loads st sysPrompt session_id message
  match runGraph messages with
  | .error e => (("I encountered an error: " ++ e, []), st)
  | .ok (response_message, widgets) =>
      let st1 := addTurn dumps loads st session_id message response_message
        (.arr (widgets.map widgetJson)) timestamp
      ((response_message, widgets), st1)

/-!  Shared helper lemmas.  -/

/-- A key that is present forces the dictionary to be nonempty (hence
truthy). -/
lemma hasKey_isEmpty_false {kvs : List (String × Json)} {k : String}
    (h : hasKey kvs k = true) : kvs.isEmpty = false := by
  cases kvs with
  | nil => simp [hasKey, jlookup] at h
  | cons a l => rfl

/-- Looking up a key right after setting it returns the new value. -/
lemma jlookup_assocSet (m : List (String × α)) (k : String) (v : α) :
    jlookup (assocSet m k v) k = some v := by
  induction m with
  | nil => simp [assocSet, jlookup]
  | cons a l ih =>
      by_cases h : a.1 = k
      · simp [assocSet, h, jlookup]
      · simp [assocSet, h, jlookup, ih]

/-!  Claim C1.  -/

/-- First document loaded in the C1 scenario: one endpoint `GET /a`. -/
def c1DocA : Json :=
  .obj [("paths", .obj [("/a", .obj [("get", .obj [])])])]

/-- Second document loaded in the C1 scenario: one endpoint `GET /b`,
and nothing from the first document. -/
def c1DocB : Json :=
  .obj [("paths", .obj [("/b", .obj [("get", .obj [])])])]

/-- C1: registry reload is *not* all-or-nothing in the code.  After a
second `load_swagger` with a different document, the collection (whence
`search` draws its candidates) holds only the new document's id, but
`get_details` for the id `GET_/a` — which belongs only to the first
document — still returns a full record instead of the not-found
indicator `None`, because `_endpoints_cache` is never cleared.  This
theorem evaluates the code at the failing input. -/
theorem C1_reload_keeps_stale_details :
    ((loadSwagger registryInit "u1" (some c1DocA)).bind fun p1 =>
      (loadSwagger p1.1 "u2" (some c1DocB)).map fun p2 =>
        (p1.2, p2.2, p2.1.collection,
         (getDetails p2.1 "GET_/a").isSome, (getDetails p2.1 "GET_/b").isSome))
      = some (1, 1, ["GET_/b"], true, true) := by
  decide

/-!  Claim C2.  -/

/-- A minimal pre-formatted tool result (has `component` and `data`). -/
def c2PreWidget : Json :=
  .obj [("component", .str "Table"),
        ("data", .obj [("columns", .arr []), ("rows", .arr [])])]

/-- An arbitrary id stream for the FORMAT stage. -/
def c2Ids : Nat → String := fun n => "widget-" ++ toString n

/-- Four pre-formatted width-6 widgets, as tool messages. -/
def c2MsgsFour : List Msg :=
  [.tool (some c2PreWidget), .tool (some c2PreWidget),
   .tool (some c2PreWidget), .tool (some c2PreWidget)]

/-- C2 counterexample: placing four pre-formatted width-6 widgets from
column 1 yields positions `(1,1), (7,1), (1,3), (7,3)`.  The rows of
widgets four, three and two are `3, 3, 1`: the fourth widget shares its
row with the third instead of starting a new one, and it is the *third*
widget that begins the new row — refuting the claim that the fourth
widget must start a new row. -/
theorem C2_counterexample_fourth_widget :
    ((formatOutputNode c2Ids c2MsgsFour).toOption.map fun out =>
        out.1.map fun w => (w.position.column, w.position.row))
      = some [(1, 1), (7, 1), (1, 3), (7, 3)] ∧
    ((formatOutputNode c2Ids c2MsgsFour).toOption.map fun out =>
        ((out.1.map fun w => w.position.row).getD 3 0,
         (out.1.map fun w => w.position.row).getD 2 0,
         (out.1.map fun w => w.position.row).getD 1 0))
      = some (3, 3, 1) := by
  exact ⟨rfl, rfl⟩

/-- A tool result that the pre-formatted branch of the FORMAT loop
accepts: a dict with both a `component` and a `data` key. -/
def isPreformatted (j : Json) : Bool :=
  match j with
  | .obj kvs => hasKey kvs "component" && hasKey kvs "data"
  | _ => false

/-- The position assigned to the `i`-th (0-based) pre-formatted width-6
widget: columns alternate 1, 7 and the row advances by 2 every second
widget. -/
def prefPos (i : Nat) : Nat × Nat × Nat × Nat :=
  ((if i % 2 = 0 then 1 else 7), 2 * (i / 2) + 1, 6, 2)

/-- Unfolding lemma for the FORMAT loop over pre-formatted tool results:
starting from a cursor that corresponds to `k` widgets already placed,
the loop appends one widget per result at the positions `prefPos k`,
`prefPos (k+1)`, ... -/
lemma formatFold_preformatted (ids : Nat → String) :
    ∀ (contents : List Json) (k : Nat) (acc : FmtAcc),
      (∀ c ∈ contents, isPreformatted c = true) →
      acc.widget_col = (if k % 2 = 0 then 1 else 7) →
      acc.widget_row = 2 * (k / 2) + 1 →
      ∃ acc1,
        formatFold ids (contents.map fun c => Msg.tool (some c)) acc = .ok acc1 ∧
        acc1.widgets.map (fun w =>
            (w.position.column, w.position.row, w.position.width, w.position.height))
          = acc.widgets.map (fun w =>
              (w.position.column, w.position.row, w.position.width, w.position.height))
            ++ (List.range contents.length).map (fun i => prefPos (k + i)) := by
  intro contents
  induction contents with
  | nil =>
      intro k acc _ _ _
      exact ⟨acc, rfl, by simp⟩
  | cons c cs ih =>
      intro k acc hall hcol hrow
      have hc : isPreformatted c = true := hall c (by simp)
      obtain ⟨kvs, hkvs⟩ : ∃ kvs, c = Json.obj kvs := by
        cases c <;> simp_all [isPreformatted]
      subst hkvs
      simp only [isPreformatted] at hc
      have hc1 : hasKey kvs "component" = true := by
        cases h1 : hasKey kvs "component" <;> simp_all
      have hc2 : hasKey kvs "data" = true := by
        cases h1 : hasKey kvs "data" <;> simp_all
      have htr : (Json.obj kvs).truthy = true := by
        simp [Json.truthy, hasKey_isEmpty_false hc1]
      have hstep : fmtStep ids acc (some (Json.obj kvs)) = .ok
          { widgets := acc.widgets ++
              [{ id := ids acc.next_id
                 component := Json.getD kvs "component" .null
                 position := { column := acc.widget_col, row := acc.widget_row,
                               width := 6, height := 2 }
                 data := Json.getD kvs "data" .null
                 config := Json.getD kvs "config" (.obj []) }]
            widget_col := if acc.widget_col + 6 > 12 then 1 else acc.widget_col + 6
            widget_row := if acc.widget_col + 6 > 12 then acc.widget_row + 2
                          else acc.widget_row
            next_id := acc.next_id + 1 } := by
        simp [fmtStep, htr, hc1, hc2]
      obtain ⟨acc1, hfold, hmap⟩ := ih (k + 1)
        { widgets := acc.widgets ++
            [{ id := ids acc.next_id
               component := Json.getD kvs "component" .null
               position := { column := acc.widget_col, row := acc.widget_row,
                             width := 6, height := 2 }
               data := Json.getD kvs "data" .null
               config := Json.getD kvs "config" (.obj []) }]
          widget_col := if acc.widget_col + 6 > 12 then 1 else acc.widget_col + 6
          widget_row := if acc.widget_col + 6 > 12 then acc.widget_row + 2
                        else acc.widget_row
          next_id := acc.next_id + 1 }
        (fun d hd => hall d (by simp [hd]))
        (by rw [hcol]; rcases Nat.even_or_odd k with he | ho
            · have h2 : k % 2 = 0 := Nat.even_iff.mp he
              have h3 : (k + 1) % 2 = 1 := by omega
              simp [h2, h3]
            · have h2 : k % 2 = 1 := Nat.odd_iff.mp ho
              have h3 : (k + 1) % 2 = 0 := by omega
              simp [h2, h3])
        (by rw [hcol, hrow]; rcases Nat.even_or_odd k with he | ho
            · have h2 : k % 2 = 0 := Nat.even_iff.mp he
              have h3 : (k + 1) / 2 = k / 2 := by omega
              simp [h2, h3]
            · have h2 : k % 2 = 1 := Nat.odd_iff.mp ho
              have h3 : (k + 1) / 2 = k / 2 + 1 := by omega
              simp [h2, h3]; omega)
      refine ⟨acc1, ?_, ?_⟩
      · simpa [formatFold, hstep] using hfold
      · rw [hmap]
        simp only [List.map_append, List.map_cons, List.map_nil, List.length_cons,
          List.append_assoc]
        congr 1
        rw [List.range_succ_eq_map, List.map_cons, List.map_map]
        simp only [List.singleton_append]
        congr 1
        · simp [prefPos, hcol, hrow]
        · apply List.map_congr_left
          intro i _
          simp only [Function.comp_apply]
          congr 1
          omega

/-- C2 (amended): pre-formatted width-6 widgets are placed left-to-right
from column 1; each widget advances the column cursor by its width (6)
and the cursor wraps to a new row once it exceeds 12, so widgets occupy
columns 1 and 7 alternately and the row advances by 2 every second
widget — in particular the *third* widget is the one that starts a new
row. -/
theorem C2_grid_wrapping (ids : Nat → String) (contents : List Json)
    (hall : ∀ c ∈ contents, isPreformatted c = true) :
    ∃ ws fm,
      formatOutputNode ids (contents.map fun c => Msg.tool (some c)) = .ok (ws, fm) ∧
      ws.map (fun w =>
          (w.position.column, w.position.row, w.position.width, w.position.height))
        = (List.range contents.length).map prefPos ∧
      ∀ i, i < contents.length →
        ws[i]?.map (fun w => w.position.row) = some (2 * (i / 2) + 1) := by
  obtain ⟨acc1, hfold, hmap⟩ := formatFold_preformatted ids contents 0
    { widgets := [], widget_row := 1, widget_col := 1, next_id := 0 }
    hall rfl rfl
  refine ⟨acc1.widgets, finalMessageFrom (contents.map fun c => Msg.tool (some c)).reverse,
    ?_, ?_, ?_⟩
  · simp [formatOutputNode, hfold]
  · simpa using hmap
  · intro i hi
    have hmap2 : acc1.widgets.map (fun w =>
        (w.position.column, w.position.row, w.position.width, w.position.height))
        = (List.range contents.length).map prefPos := by simpa using hmap
    have h4 := congrArg (fun l => l[i]?) hmap2
    simp only [List.getElem?_map] at h4
    rw [List.getElem?_range hi] at h4
    cases h5 : acc1.widgets[i]? with
    | none => simp [h5] at h4
    | some w =>
        simp only [h5, Option.map_some] at h4 ⊢
        have h6 := Option.some.inj h4
        have h7 := congrArg (fun p => p.2.1) h6
        simpa [prefPos] using h7

/-- Witness for C2: three pre-formatted widgets land at
`(1,1), (7,1), (1,3)` — the third one opens the new row. -/
theorem C2_grid_wrapping_witness :
    ((formatOutputNode c2Ids
        ([c2PreWidget, c2PreWidget, c2PreWidget].map fun c => Msg.tool (some c))).toOption.map
      fun out => out.1.map fun w =>
        (w.position.column, w.position.row, w.position.width, w.position.height))
      = some [(1, 1, 6, 2), (7, 1, 6, 2), (1, 3, 6, 2)] := by
  obtain ⟨ws, fm, h1, h2, -⟩ := C2_grid_wrapping c2Ids [c2PreWidget, c2PreWidget, c2PreWidget]
    (by decide)
  rw [h1]
  simp only [Except.toOption, Option.map_some']
  rw [h2]
  rfl

/-!  Claim C4.  -/

/-- A nonempty string is truthy. -/
lemma isEmpty_false_of_ne {s : String} (h : s ≠ "") : s.isEmpty = false := by
  have h2 := String.isEmpty_iff (s := s)
  cases hh : s.isEmpty
  · rfl
  · exact absurd (h2.mp hh) h

/-- Store-level round trip: reading a key right after writing it returns
the written value, provided the fallback path is active or the
serializers round-trip at that value. -/
lemma cacheGet_cacheSet (dumps : Json → String) (loads : String → Option Json)
    (st : CacheState) (key : String) (v : Json) (ttl : Option Nat)
    (h : st.connected = false ∨ (loads (dumps v) = some v ∧ dumps v ≠ "")) :
    cacheGet loads (cacheSet dumps st key v ttl).1 key = some v := by
  unfold cacheSet cacheGet
  by_cases hc : st.connected
  · rcases h with h | ⟨hrt, hne⟩
    · rw [hc] at h; cases h
    · simp [hc, jlookup_assocSet, isEmpty_false_of_ne hne, hrt]
  · simp [hc, jlookup_assocSet]

/-- C4: cache round-trip.  For every key and every value, `set` followed
immediately by `get` returns the stored value, on both the connected path
(through the backing store and the JSON serializers, assuming only the
serializer round-trip contract at the stored value) and the in-memory
fallback path (exactly). -/
theorem C4_cache_roundtrip (dumps : Json → String) (loads : String → Option Json)
    (st : CacheState) (key : String) (v : Json) (ttl : Option Nat)
    (hrt : loads (dumps v) = some v) (hne : dumps v ≠ "") :
    cacheGet loads (cacheSet dumps st key v ttl).1 key = some v :=
  cacheGet_cacheSet dumps loads st key v ttl (Or.inr ⟨hrt, hne⟩)

/-- Witness for C4: one concrete round-trip through the connected path
and one through the fallback path. -/
theorem C4_cache_roundtrip_witness :
    cacheGet (fun _ => some Json.null)
        (cacheSet (fun _ => "null") { connected := true, redis := [], memory := [] }
          "k" Json.null none).1 "k" = some Json.null ∧
    cacheGet (fun _ => some Json.null)
        (cacheSet (fun _ => "null") { connected := false, redis := [], memory := [] }
          "k" Json.null none).1 "k" = some Json.null :=
  ⟨C4_cache_roundtrip _ _ _ "k" Json.null none rfl (by decide),
   C4_cache_roundtrip _ _ _ "k" Json.null none rfl (by decide)⟩

/-!  Claim C8.  -/

/-- The serializer contract under which the connected storage path is
transparent: decoding inverts encoding and encodings are nonempty (Python's
`json.dumps` never returns the empty string). -/
def codecOk (dumps : Json → String) (loads : String → Option Json) : Prop :=
  ∀ x, loads (dumps x) = some x ∧ dumps x ≠ ""

/-- The hypothesis under which conversation-memory storage is transparent:
either the fallback path is active, or the serializers satisfy their
contract. -/
def memTransparent (dumps : Json → String) (loads : String → Option Json)
    (st : CacheState) : Prop :=
  st.connected = false ∨ codecOk dumps loads

/-- Setting a key never changes the connectivity flag. -/
lemma cacheSet_connected (dumps : Json → String) (st : CacheState)
    (key : String) (v : Json) (ttl : Option Nat) :
    ((cacheSet dumps st key v ttl).1).connected = st.connected := by
  unfold cacheSet
  by_cases h : st.connected <;> simp [h]

/-- A 20-element window over a freshly appended list is never empty. -/
lemma lastN_append_singleton_ne_nil {n : Nat} (hn : 0 < n) (l : List α) (x : α) :
    lastN n (l ++ [x]) ≠ [] := by
  unfold lastN
  intro h
  have h2 := congrArg List.length h
  simp [List.length_drop] at h2
  omega

/-- Re-windowing after appending one element: truncating an already
truncated list gives the same 20-element window as truncating the full
list. -/
lemma lastN_lastN_append {n : Nat} (hn : 0 < n) (xs : List α) (y : α) :
    lastN n (lastN n xs ++ [y]) = lastN n (xs ++ [y]) := by
  unfold lastN
  by_cases h : xs.length ≤ n
  · rw [Nat.sub_eq_zero_of_le h, List.drop_zero]
  · push_neg at h
    have hlen : (xs.drop (xs.length - n)).length = n := by
      rw [List.length_drop]; omega
    have hlen2 : (xs.drop (xs.length - n) ++ [y]).length = n + 1 := by
      simp [hlen]
    rw [hlen2]
    have h3 : n + 1 - n = 1 := by omega
    rw [h3]
    rw [List.drop_append_of_le_length (by rw [hlen]; omega)]
    rw [List.drop_drop]
    have h4 : (xs ++ [y]).length = xs.length + 1 := by simp
    rw [h4]
    rw [List.drop_append_of_le_length (by omega)]
    have h5 : xs.length - n + 1 = xs.length + 1 - n := by omega
    rw [h5]

/-- One `add_turn` updates the readable history to the 20-element window
over the previous history plus the new turn. -/
lemma getHistory_addTurn (dumps : Json → String) (loads : String → Option Json)
    (st : CacheState) (sid u a : String) (w : Json) (ts : String)
    (h : memTransparent dumps loads st) :
    getHistory loads (addTurn dumps loads st sid u a w ts) sid
      = lastN 20 (getHistory loads st sid ++ [mkTurn u a w ts]) := by
  have hne : lastN 20 (getHistory loads st sid ++ [mkTurn u a w ts]) ≠ [] :=
    lastN_append_singleton_ne_nil (by omega) _ _
  have hemp : (lastN 20 (getHistory loads st sid ++ [mkTurn u a w ts])).isEmpty = false := by
    cases hh : lastN 20 (getHistory loads st sid ++ [mkTurn u a w ts]) with
    | nil => exact absurd hh hne
    | cons c l => rfl
  set G := getHistory loads st sid with hG
  have hvl : cacheGet loads (addTurn dumps loads st sid u a w ts) (historyKey sid)
      = some (.arr (lastN 20 (G ++ [mkTurn u a w ts]))) := by
    rw [show addTurn dumps loads st sid u a w ts
        = (cacheSet dumps st (historyKey sid)
            (.arr (lastN 20 (G ++ [mkTurn u a w ts]))) (some 3600)).1 from rfl]
    apply cacheGet_cacheSet
    rcases h with h | h
    · exact Or.inl h
    · exact Or.inr ⟨(h _).1, (h _).2⟩
  simp only [getHistory, hvl]
  simp [Json.truthy, hemp]

/-- `add_turn` preserves storage transparency. -/
lemma memTransparent_addTurn (dumps : Json → String) (loads : String → Option Json)
    (st : CacheState) (sid u a : String) (w : Json) (ts : String)
    (h : memTransparent dumps loads st) :
    memTransparent dumps loads (addTurn dumps loads st sid u a w ts) := by
  rcases h with h | h
  · exact Or.inl (by rw [addTurn, cacheSet_connected]; exact h)
  · exact Or.inr h

/-- A conversation turn's payload: user text, assistant text, widgets,
timestamp. -/
abbrev TurnData := (String × String) × Json × String

/-- Appending one turn of data. -/
def addTurnData (dumps : Json → String) (loads : String → Option Json)
    (sid : String) (st : CacheState) (t : TurnData) : CacheState :=
  addTurn dumps loads st sid t.1.1 t.1.2 t.2.1 t.2.2

/-- The turn dict corresponding to one turn of data. -/
def mkTurnData (t : TurnData) : Json :=
  mkTurn t.1.1 t.1.2 t.2.1 t.2.2

/-- Folding `add_turn` over a sequence of turns preserves transparency. -/
lemma memTransparent_foldl (dumps : Json → String) (loads : String → Option Json)
    (sid : String) :
    ∀ (turns : List TurnData) (st : CacheState),
      memTransparent dumps loads st →
      memTransparent dumps loads (turns.foldl (addTurnData dumps loads sid) st) := by
  intro turns
  induction turns with
  | nil => intro st h; exact h
  | cons t ts ih =>
      intro st h
      exact ih _ (memTransparent_addTurn _ _ _ _ _ _ _ _ h)

/-- The readable history after a nonempty sequence of appends is the
20-element window over the initial history plus all appended turns. -/
lemma getHistory_foldl (dumps : Json → String) (loads : String → Option Json)
    (sid : String) :
    ∀ (turns : List TurnData) (st : CacheState), turns ≠ [] →
      memTransparent dumps loads st →
      getHistory loads (turns.foldl (addTurnData dumps loads sid) st) sid
        = lastN 20 (getHistory loads st sid ++ turns.map mkTurnData) := by
  intro turns
  induction turns using List.reverseRecOn with
  | nil =>
      intro st hne
      exact absurd rfl hne
  | append_singleton ts t ih =>
      intro st _ h
      rw [List.foldl_append]
      simp only [List.foldl_cons, List.foldl_nil, addTurnData]
      rcases eq_or_ne ts ([] : List TurnData) with hts | hts
      · subst hts
        simp only [List.foldl_nil]
        rw [getHistory_addTurn _ _ _ _ _ _ _ _ h]
        simp [mkTurnData]
      · rw [getHistory_addTurn _ _ _ _ _ _ _ _ (memTransparent_foldl _ _ _ _ _ h)]
        rw [ih st hts h]
        rw [lastN_lastN_append (by omega)]
        simp [mkTurnData, List.append_assoc]

/-- C8: conversation-memory sliding window.  Every append truncates the
stored sequence to the 20 most recent turns (oldest dropped first), and
after 25 appended turns `get_history` returns exactly the 20 most recently
appended turns in insertion order — under the storage-transparency
hypothesis (fallback mode, or the serializer contract on the connected
path). -/
theorem C8_memory_window (dumps : Json → String) (loads : String → Option Json)
    (st : CacheState) (sid : String)
    (h : memTransparent dumps loads st) :
    (∀ u a w ts,
      getHistory loads (addTurn dumps loads st sid u a w ts) sid
        = lastN 20 (getHistory loads st sid ++ [mkTurn u a w ts])) ∧
    (∀ turns : List TurnData, turns.length = 25 →
      getHistory loads (turns.foldl (addTurnData dumps loads sid) st) sid
        = (turns.map mkTurnData).drop 5) := by
  constructor
  · intro u a w ts
    exact getHistory_addTurn dumps loads st sid u a w ts h
  · intro turns hlen
    have hne : turns ≠ [] := by
      intro hnil
      rw [hnil] at hlen
      simp at hlen
    rw [getHistory_foldl dumps loads sid turns st hne h]
    unfold lastN
    have h1 : (getHistory loads st sid ++ turns.map mkTurnData).length
        = (getHistory loads st sid).length + 25 := by
      simp [hlen]
    rw [h1]
    have h2 : (getHistory loads st sid).length + 25 - 20
        = (getHistory loads st sid).length + 5 := by omega
    rw [h2]
    exact List.drop_append 5

/-- Witness for C8: a concrete fallback-mode cache, 25 concrete turns,
and the resulting 20-element window. -/
theorem C8_memory_window_witness :
    getHistory (fun _ => none)
        (((List.range 25).map fun i => ((toString i, "r"), (Json.null, "t")) : List TurnData).foldl
          (addTurnData (fun _ => "d") (fun _ => none) "s")
          { connected := false, redis := [], memory := [] }) "s"
      = (((List.range 25).map fun i => ((toString i, "r"), (Json.null, "t")) : List TurnData).map
          mkTurnData).drop 5 :=
  (C8_memory_window (fun _ => "d") (fun _ => none)
      { connected := false, redis := [], memory := [] } "s" (Or.inl rfl)).2
    _ (by simp)

/-!  Claims C3 and C9: `call_api`.  -/

/-- A cache state is a miss (or falsy hit) at a key when no truthy value
is stored there — exactly the condition under which `call_api` performs
the outbound request. -/
def noTruthyHit (loads : String → Option Json) (cst : CacheState) (key : String) : Prop :=
  ∀ v, cacheGet loads cst key = some v → v.truthy = false

/-- C3: `call_api` never raises past the tool boundary.  For a resolvable
endpoint id: (a) a response with status ≥ 400 yields the result object
`(error: "API returned <status>", message: body[:200])` as a value, with
the cache untouched; (b) the cache is written only on a successful
(status < 400, JSON-decodable) response; (c) a (truthy) cache hit is
returned as `(data, cached: true)` without touching the network or the
cache; (d) a fresh successful call returns `(data, cached: false)` and
writes the payload.  The embedding is total, so no branch can propagate
an exception. -/
theorem C3_call_api_error_containment
    (hashParams : List (String × Json) → String) (dumps : Json → String)
    (loads : String → Option Json) (reg : RegState) (cst : CacheState)
    (endpoint_id : String) (pps qps : List (String × Json)) (d : Json)
    (hd : getDetails reg endpoint_id = some d) :
    (∀ status text body, 400 ≤ status →
      noTruthyHit loads cst (callApiKey hashParams endpoint_id pps qps) →
      callApi hashParams dumps loads reg cst endpoint_id pps qps (.resp status text body)
        = (.obj [("error", .str ("API returned " ++ toString status)),
                 ("message", .str (text.take 200))], cst)) ∧
    (∀ http, (callApi hashParams dumps loads reg cst endpoint_id pps qps http).2 = cst ∨
      ∃ status text data2, http = .resp status text (.ok data2) ∧ status < 400) ∧
    (∀ v, cacheGet loads cst (callApiKey hashParams endpoint_id pps qps) = some v →
      v.truthy = true → ∀ http,
      callApi hashParams dumps loads reg cst endpoint_id pps qps http
        = (.obj [("data", v), ("cached", .bool true)], cst)) ∧
    (∀ status text data2, status < 400 →
      noTruthyHit loads cst (callApiKey hashParams endpoint_id pps qps) →
      callApi hashParams dumps loads reg cst endpoint_id pps qps (.resp status text (.ok data2))
        = (.obj [("data", data2), ("cached", .bool false)],
           (cacheSet dumps cst (callApiKey hashParams endpoint_id pps qps) data2 none).1)) := by
  refine ⟨?_, ?_, ?_, ?_⟩
  · intro status text body hst hmiss
    simp only [callApi, hd]
    cases hget : cacheGet loads cst (callApiKey hashParams endpoint_id pps qps) with
    | none => simp [callApiFresh, hst]
    | some v => simp [hmiss v hget, callApiFresh, hst]
  · intro http
    simp only [callApi, hd]
    cases hget : cacheGet loads cst (callApiKey hashParams endpoint_id pps qps) with
    | none =>
        cases http with
        | exn m => simp [callApiFresh]
        | resp status text body =>
            by_cases hst : status ≥ 400
            · simp [callApiFresh, hst]
            · cases body with
              | error m => simp [callApiFresh, hst]
              | ok data2 =>
                  right
                  exact ⟨status, text, data2, rfl, by omega⟩
    | some v =>
        by_cases htr : v.truthy
        · simp [htr]
        · cases http with
          | exn m => simp [htr, callApiFresh]
          | resp status text body =>
              by_cases hst : status ≥ 400
              · simp [htr, callApiFresh, hst]
              · cases body with
                | error m => simp [htr, callApiFresh, hst]
                | ok data2 =>
                    right
                    exact ⟨status, text, data2, rfl, by omega⟩
  · intro v hget htr http
    simp only [callApi, hd]
    simp [hget, htr]
  · intro status text data2 hst hmiss
    have hst2 : ¬ (status ≥ 400) := by omega
    simp only [callApi, hd]
    cases hget : cacheGet loads cst (callApiKey hashParams endpoint_id pps qps) with
    | none => simp [callApiFresh, hst2]
    | some v => simp [hmiss v hget, callApiFresh, hst2]

/-- The endpoint record used by the concrete `call_api` scenarios. -/
def c3Ep : Endpoint :=
  { id := "GET_/a", path := "/a", method := "GET", summary := .str ""
    description := .str "", tags := .arr [], parameters := [], response_schema := none }

/-- A registry resolving exactly the endpoint `GET_/a`. -/
def c3Reg : RegState :=
  { collection := ["GET_/a"], endpoints_cache := [("GET_/a", c3Ep)], parser := none }

/-- A constant stand-in for the MD5 parameter hash. -/
def c3H : List (String × Json) → String := fun _ => "H"

/-- Serializer stand-ins for scenarios that never touch the Redis path. -/
def c3Dumps : Json → String := fun _ => "d"

/-- Deserializer stand-in (never consulted in fallback mode with an empty
Redis map). -/
def c3Loads : String → Option Json := fun _ => none

/-- An empty fallback-mode cache: every lookup misses. -/
def c3CstMiss : CacheState := { connected := false, redis := [], memory := [] }

/-- A fallback-mode cache holding the truthy payload `5` under the key
`call_api` computes for `GET_/a` with no parameters. -/
def c3CstHit : CacheState :=
  { connected := false, redis := [], memory := [("seefast:api:GET_/a:H", (.int 5, 0))] }

/-- Witness for C3: the three scenarios at concrete inputs — a 404 turned
into an error object, a cache hit tagged `cached: true`, and a fresh
success tagged `cached: false` that writes the cache. -/
theorem C3_call_api_witness :
    callApi c3H c3Dumps c3Loads c3Reg c3CstMiss "GET_/a" [] []
        (.resp 404 "missing pet" (.error "boom"))
      = (.obj [("error", .str ("API returned " ++ toString 404)),
               ("message", .str ("missing pet".take 200))], c3CstMiss) ∧
    callApi c3H c3Dumps c3Loads c3Reg c3CstHit "GET_/a" [] [] (.exn "offline")
      = (.obj [("data", .int 5), ("cached", .bool true)], c3CstHit) ∧
    callApi c3H c3Dumps c3Loads c3Reg c3CstMiss "GET_/a" [] []
        (.resp 200 "ok" (.ok (.int 7)))
      = (.obj [("data", .int 7), ("cached", .bool false)],
         (cacheSet c3Dumps c3CstMiss (callApiKey c3H "GET_/a" [] []) (.int 7) none).1) := by
  obtain ⟨h1, _, h3, h4⟩ := C3_call_api_error_containment c3H c3Dumps c3Loads c3Reg c3CstMiss
    "GET_/a" [] [] _ rfl
  obtain ⟨_, _, h3b, _⟩ := C3_call_api_error_containment c3H c3Dumps c3Loads c3Reg c3CstHit
    "GET_/a" [] [] _ rfl
  refine ⟨h1 404 "missing pet" (.error "boom") (by omega) ?_, ?_, ?_⟩
  · intro v hv
    exact Option.noConfusion hv
  · exact h3b (.int 5) rfl rfl (.exn "offline")
  · exact h4 200 "ok" (.int 7) (by omega) (fun v hv => Option.noConfusion hv)

/-- C9: a cache hit is honoured only for truthy payloads.  If the stored
value at the computed key is JSON-falsy, `call_api` treats it as a miss:
it performs the outbound request (behaving exactly like `callApiFresh`)
and, on success, returns the fresh payload tagged `cached: false`; and
any result tagged `cached: true` carries a truthy payload. -/
theorem C9_falsy_hit_is_miss
    (hashParams : List (String × Json) → String) (dumps : Json → String)
    (loads : String → Option Json) (reg : RegState) (cst : CacheState)
    (endpoint_id : String) (pps qps : List (String × Json)) (d : Json)
    (hd : getDetails reg endpoint_id = some d) :
    (∀ v, cacheGet loads cst (callApiKey hashParams endpoint_id pps qps) = some v →
      v.truthy = false → ∀ http,
      callApi hashParams dumps loads reg cst endpoint_id pps qps http
        = callApiFresh dumps cst (callApiKey hashParams endpoint_id pps qps) http) ∧
    (∀ v, cacheGet loads cst (callApiKey hashParams endpoint_id pps qps) = some v →
      v.truthy = false → ∀ status text data2, status < 400 →
      callApi hashParams dumps loads reg cst endpoint_id pps qps (.resp status text (.ok data2))
        = (.obj [("data", data2), ("cached", .bool false)],
           (cacheSet dumps cst (callApiKey hashParams endpoint_id pps qps) data2 none).1)) ∧
    (∀ http res cst2,
      callApi hashParams dumps loads reg cst endpoint_id pps qps http = (res, cst2) →
      ∀ v, res = .obj [("data", v), ("cached", .bool true)] → v.truthy = true) := by
  refine ⟨?_, ?_, ?_⟩
  · intro v hget htr http
    simp only [callApi, hd]
    simp [hget, htr]
  · intro v hget htr status text data2 hst
    have hst2 : ¬ (status ≥ 400) := by omega
    simp only [callApi, hd]
    simp [hget, htr, callApiFresh, hst2]
  · intro http res cst2 hcall v hres
    subst hres
    simp only [callApi, hd] at hcall
    revert hcall
    cases hget : cacheGet loads cst (callApiKey hashParams endpoint_id pps qps) with
    | none =>
        intro hcall
        cases http with
        | exn m => simp [callApiFresh] at hcall
        | resp status text body =>
            by_cases hst : status ≥ 400
            · simp [callApiFresh, hst] at hcall
            · cases body with
              | error m => simp [callApiFresh, hst] at hcall
              | ok data2 => simp [callApiFresh, hst] at hcall
    | some v2 =>
        by_cases htr : v2.truthy
        · intro hcall
          simp only [htr, if_true] at hcall
          have h5 := congrArg Prod.fst hcall
          simp only at h5
          have h6 := Json.obj.inj h5
          have h7 := (List.cons.inj h6).1
          have h8 := (Prod.mk.inj h7).2
          rw [← h8]
          exact htr
        · intro hcall
          simp only [htr] at hcall
          cases http with
          | exn m => simp [callApiFresh] at hcall
          | resp status text body =>
              by_cases hst : status ≥ 400
              · simp [callApiFresh, hst] at hcall
              · cases body with
                | error m => simp [callApiFresh, hst] at hcall
                | ok data2 => simp [callApiFresh, hst] at hcall

/-- A fallback-mode cache holding the falsy payload `[]` under the key
`call_api` computes for `GET_/a` with no parameters. -/
def c9CstFalsy : CacheState :=
  { connected := false, redis := [], memory := [("seefast:api:GET_/a:H", (.arr [], 0))] }

/-- Witness for C9: with an empty list stored at the key, `call_api`
performs the request and answers `cached: false`; and the hit-tagged
result of the truthy-hit scenario indeed carries a truthy payload. -/
theorem C9_falsy_hit_witness :
    callApi c3H c3Dumps c3Loads c3Reg c9CstFalsy "GET_/a" [] []
        (.resp 200 "ok" (.ok (.int 7)))
      = (.obj [("data", .int 7), ("cached", .bool false)],
         (cacheSet c3Dumps c9CstFalsy (callApiKey c3H "GET_/a" [] []) (.int 7) none).1) ∧
    Json.truthy (.int 5) = true := by
  obtain ⟨-, h2, -⟩ := C9_falsy_hit_is_miss c3H c3Dumps c3Loads c3Reg c9CstFalsy
    "GET_/a" [] [] _ rfl
  obtain ⟨-, -, h3⟩ := C9_falsy_hit_is_miss c3H c3Dumps c3Loads c3Reg c3CstHit
    "GET_/a" [] [] _ rfl
  refine ⟨h2 (.arr []) rfl rfl 200 "ok" (.int 7) (by omega), ?_⟩
  exact h3 (.exn "offline") _ _ rfl (.int 5) rfl

/-!  Claim C5: catalog extraction.  -/

/-- The ids the claim predicts for one path item, stated from the spec's
words: one per supported-verb entry, `"<VERB-uppercased>_<path>"`, in
order; any other key under the path contributes nothing. -/
def specIdsOfPathItem (path : String) (item : Json) : List String :=
  match item with
  | .obj methods =>
      (methods.filter fun kv => supportedMethods.contains kv.1).map
        fun kv => pyUpper kv.1 ++ "_" ++ path
  | _ => []

/-- The ids the claim predicts for a whole `paths` section. -/
def specEndpointIds (paths : List (String × Json)) : List String :=
  (paths.map fun kv => specIdsOfPathItem kv.1 kv.2).flatten

/-- Every extracted endpoint of one supported-verb entry carries the
deterministic id. -/
lemma extractOne_id (path method : String) (details : Json) (e : Endpoint)
    (h : extractOne path method details = some e) :
    e.id = pyUpper method ++ "_" ++ path := by
  cases details with
  | obj d =>
      simp only [extractOne] at h
      cases hp : extractParams (Json.getD d "parameters" (.arr [])) with
      | none => rw [hp] at h; cases h
      | some params =>
          cases hs : get200Schema (Json.getD d "responses" (.obj [])) with
          | none => rw [hp, hs] at h; cases h
          | some schema =>
              rw [hp, hs] at h
              cases h
              rfl
  | null => cases h
  | bool b => cases h
  | int n => cases h
  | str s => cases h
  | arr xs => cases h

/-- The inner extraction loop produces exactly the predicted ids for one
path item. -/
lemma extractFromPathItem_ids (path : String) :
    ∀ (methods : List (String × Json)) (eps : List Endpoint),
      extractFromPathItem path methods = some eps →
      eps.map (·.id) = specIdsOfPathItem path (.obj methods) := by
  intro methods
  induction methods with
  | nil =>
      intro eps h
      cases h
      simp [specIdsOfPathItem]
  | cons md rest ih =>
      intro eps h
      obtain ⟨m, det⟩ := md
      simp only [extractFromPathItem] at h
      by_cases hs : supportedMethods.contains m
      · rw [if_pos hs] at h
        cases he : extractOne path m det with
        | none => rw [he] at h; cases h
        | some e =>
            cases ht : extractFromPathItem path rest with
            | none => rw [he, ht] at h; cases h
            | some tail =>
                rw [he, ht] at h
                cases h
                have hid := extractOne_id path m det e he
                have htail := ih tail ht
                have hs2 : m ∈ supportedMethods := by simpa using hs
                simp only [specIdsOfPathItem] at htail ⊢
                simp [List.filter_cons, hs2, hid, htail]
      · rw [if_neg hs] at h
        have htail := ih eps h
        have hs2 : m ∉ supportedMethods := by simpa using hs
        simp only [specIdsOfPathItem] at htail ⊢
        simp [List.filter_cons, hs2, htail]

/-- The outer extraction loop produces exactly the predicted ids. -/
lemma extractPaths_ids :
    ∀ (paths : List (String × Json)) (eps : List Endpoint),
      extractPaths paths = some eps →
      eps.map (·.id) = specEndpointIds paths := by
  intro paths
  induction paths with
  | nil =>
      intro eps h
      cases h
      simp [specEndpointIds]
  | cons pi rest ih =>
      intro eps h
      obtain ⟨p, item⟩ := pi
      cases item with
      | obj methods =>
          simp only [extractPaths] at h
          cases hh : extractFromPathItem p methods with
          | none => rw [hh] at h; cases h
          | some here =>
              cases ht : extractPaths rest with
              | none => rw [hh, ht] at h; cases h
              | some tail =>
                  rw [hh, ht] at h
                  cases h
                  have h1 := extractFromPathItem_ids p methods here hh
                  have h2 := ih tail ht
                  simp [specEndpointIds, h1, h2]
      | null => cases h
      | bool b => cases h
      | int n => cases h
      | str s => cases h
      | arr xs => cases h

/-- C5 counterexample: a document whose sole operation has a `"200"`
response *without* a `schema` field.  The claim says the response schema
is then null; the code stores the empty object (`.get("schema", dict())`),
which is not the not-present indicator. -/
def c5Doc : Json :=
  .obj [("paths", .obj
    [("/a", .obj
      [("get", .obj
        [("responses", .obj [("200", .obj [("description", .str "ok")])])])])])]

/-- C5 counterexample theorem: extraction on `c5Doc` yields one endpoint
whose `response_schema` is the empty object, not `None`. -/
theorem C5_counterexample_schema :
    ((extractEndpoints c5Doc).map fun eps => eps.map fun e => e.response_schema)
      = some [some (Json.obj [])] ∧
    some (Json.obj []) ≠ (none : Option Json) := by
  exact ⟨rfl, by simp⟩

/-- C5 (amended): catalog extraction.  (1) Whenever extraction succeeds
on a document with a `paths` dictionary, it yields exactly one endpoint
per supported-verb entry, in order, with id `"<VERB-uppercased>_<path>"`,
and every other key under a path contributes no endpoint.  (2) A
parameter object missing `in`/`required`/`type`/`description` gets the
defaults `"query"`, `false`, `"string"`, `""` (and `name` defaults to
`""`).  (3) The response schema is the `"200"` response's `schema` value
when that field is present; it is the *empty object* when the `"200"`
response exists without a `schema` field; and it is null only when there
is no `"200"` response. -/
theorem C5_catalog_extraction :
    (∀ (spec : Json) (top pathsKvs : List (String × Json)) (eps : List Endpoint),
      spec = Json.obj top →
      Json.getD top "paths" (.obj []) = Json.obj pathsKvs →
      extractEndpoints spec = some eps →
      eps.map (·.id) = specEndpointIds pathsKvs ∧
      eps.length = (specEndpointIds pathsKvs).length) ∧
    (∀ pkvs : List (String × Json),
      jlookup pkvs "in" = none → jlookup pkvs "required" = none →
      jlookup pkvs "type" = none → jlookup pkvs "description" = none →
      extractParam (.obj pkvs) = some
        { name := Json.getD pkvs "name" (.str ""), location := .str "query",
          required := .bool false, param_type := .str "string",
          description := .str "" }) ∧
    (∀ rs : List (String × Json),
      (jlookup rs "200" = none → get200Schema (.obj rs) = some none) ∧
      (∀ r s, jlookup rs "200" = some (.obj r) → jlookup r "schema" = some s →
        get200Schema (.obj rs) = some (some s)) ∧
      (∀ r, jlookup rs "200" = some (.obj r) → jlookup r "schema" = none →
        get200Schema (.obj rs) = some (some (.obj [])))) := by
  refine ⟨?_, ?_, ?_⟩
  · intro spec top pathsKvs eps hspec hpaths hex
    subst hspec
    simp only [extractEndpoints, hpaths] at hex
    have hids := extractPaths_ids pathsKvs eps hex
    refine ⟨hids, ?_⟩
    have := congrArg List.length hids
    simpa using this
  · intro pkvs h1 h2 h3 h4
    simp [extractParam, Json.getD, h1, h2, h3, h4]
  · intro rs
    refine ⟨?_, ?_, ?_⟩
    · intro h
      simp [get200Schema, h]
    · intro r s h1 h2
      simp [get200Schema, h1, Json.getD, h2]
    · intro r h1 h2
      simp [get200Schema, h1, Json.getD, h2]

/-- The `paths` section of the C5 witness document. -/
def c5wPaths : List (String × Json) :=
  [("/a", .obj [("get", .obj []), ("parameters", .arr [])])]

/-- The endpoint list extraction produces for the C5 witness document. -/
def c5wEps : List Endpoint :=
  [{ id := "GET_/a", path := "/a", method := "GET", summary := .str ""
     description := .str "", tags := .arr [], parameters := [], response_schema := none }]

/-- Witness for C5: the concrete document with one `get` operation and a
shared `parameters` block yields exactly the one predicted id, a
key-less parameter object gets all defaults, and an empty responses
dictionary gives a null schema. -/
theorem C5_catalog_extraction_witness :
    c5wEps.map (·.id) = specEndpointIds c5wPaths ∧
    c5wEps.length = (specEndpointIds c5wPaths).length ∧
    extractParam (.obj [("name", .str "petId")]) = some
      { name := Json.getD [("name", .str "petId")] "name" (.str ""),
        location := .str "query", required := .bool false,
        param_type := .str "string", description := .str "" } ∧
    get200Schema (.obj []) = some none := by
  obtain ⟨h1, h2⟩ := C5_catalog_extraction.1 (Json.obj [("paths", Json.obj c5wPaths)])
    [("paths", Json.obj c5wPaths)] c5wPaths c5wEps rfl rfl rfl
  refine ⟨h1, h2, ?_, ?_⟩
  · exact C5_catalog_extraction.2.1 [("name", .str "petId")] rfl rfl rfl rfl
  · exact (C5_catalog_extraction.2.2 []).1 rfl

/-!  Claim C6: the invocation boundary.  -/

/-- C6: any exception raised inside the graph run (reasoning, tool
execution or formatting) is caught by `process_query`, which returns the
user-visible error text with an *empty* widget list and leaves
conversation memory untouched; nothing escapes to the caller. -/
theorem C6_invocation_boundary (dumps : Json → String) (loads : String → Option Json)
    (runGraph : List Msg → Except String (String × List Widget))
    (st : CacheState) (sysPrompt session_id message timestamp e : String)
    (h : runGraph (seedMessages loads st sysPrompt session_id message) = .error e) :
    processQuery dumps loads runGraph st sysPrompt session_id message timestamp
      = (("I encountered an error: " ++ e, []), st) := by
  simp only [processQuery, h]

/-- Witness for C6: a graph run that raises `boom` is converted into the
error response, with no widgets and no memory write. -/
theorem C6_invocation_boundary_witness :
    processQuery c3Dumps c3Loads (fun _ => .error "boom") c3CstMiss "sys" "s" "hi" "t0"
      = (("I encountered an error: " ++ "boom", []), c3CstMiss) :=
  C6_invocation_boundary c3Dumps c3Loads (fun _ => .error "boom") c3CstMiss
    "sys" "s" "hi" "t0" "boom" rfl

/-!  Claim C7: control-loop routing and termination.

The FORMAT node can raise (an `AttributeError` on pathological tool
payloads, see `fmtStep`); for the run to terminate normally the tool
payloads must avoid those shapes.  `contentSafe` captures exactly the
payloads on which the FORMAT loop cannot raise — every dict payload an
actual tool produces qualifies.  -/

/-- Raw payload shapes on which `auto_format_data` cannot raise: a list
headed by a dict must keep only dicts among its first 20 items. -/
def autoSafe (data : Json) : Bool :=
  match data with
  | .arr (Json.obj kvs :: rest) =>
      ((Json.obj kvs :: rest).take 20).all fun item =>
        match item with | .obj _ => true | _ => false
  | _ => true

/-- Parsed tool-message contents on which one FORMAT step cannot raise. -/
def contentSafe : Option Json → Bool
  | none => true
  | some j =>
      match j with
      | .obj kvs =>
          if hasKey kvs "component" && hasKey kvs "data" then true
          else if hasKey kvs "data" && !(Json.getD kvs "error" .null).truthy then
            autoSafe (Json.getD kvs "data" .null)
          else true
      | .arr xs => (listHasStr xs "component" && listHasStr xs "data") || !listHasStr xs "data"
      | .str s => (strContains s "component" && strContains s "data") || !strContains s "data"
      | _ => true

/-- Messages on which the FORMAT loop cannot raise. -/
def msgSafe : Msg → Bool
  | .tool c => contentSafe c
  | _ => true

/-- An effectful map over elements on which the body succeeds produces a
result. -/
lemma optionMapList_total (f : α → Option β) :
    ∀ (l : List α), (∀ a ∈ l, (f a).isSome) → ∃ r, optionMapList f l = some r := by
  intro l
  induction l with
  | nil => exact fun _ => ⟨[], rfl⟩
  | cons a rest ih =>
      intro h
      obtain ⟨b, hb⟩ := Option.isSome_iff_exists.mp (h a (by simp))
      obtain ⟨r, hr⟩ := ih fun x hx => h x (by simp [hx])
      exact ⟨b :: r, by simp [optionMapList, hb, hr]⟩

/-- `auto_format_data` returns normally on safe payloads. -/
lemma autoFormatData_safe (wid : String) (data : Json) (row col : Nat)
    (h : autoSafe data = true) :
    ∃ w, autoFormatData wid data row col = .ok w := by
  cases data with
  | null => exact ⟨none, rfl⟩
  | bool b => exact ⟨none, rfl⟩
  | int n => exact ⟨none, rfl⟩
  | str s => exact ⟨none, rfl⟩
  | obj kvs =>
      cases hres : autoFormatData wid (.obj kvs) row col with
      | ok w => exact ⟨w, rfl⟩
      | error e =>
          exfalso
          simp only [autoFormatData] at hres
          split at hres <;> cases hres
  | arr xs =>
      cases xs with
      | nil => exact ⟨none, rfl⟩
      | cons x rest =>
          cases x with
          | obj kvs0 =>
              simp only [autoSafe, List.all_eq_true] at h
              have hcells : ∀ item ∈ (Json.obj kvs0 :: rest).take 20,
                  (optionMapList (fun c => tableCell c item)
                    ((kvs0.map (·.1)).take 10)).isSome := by
                intro item hit
                have h2 := h item hit
                cases item with
                | obj m =>
                    obtain ⟨r, hr⟩ := optionMapList_total
                      (fun c => tableCell c (Json.obj m)) ((kvs0.map (·.1)).take 10)
                      (fun c _ => by simp [tableCell])
                    simp [hr]
                | null => cases h2
                | bool b => cases h2
                | int n => cases h2
                | str s => cases h2
                | arr ys => cases h2
              obtain ⟨rows, hrows⟩ := optionMapList_total _ _ hcells
              cases hres : autoFormatData wid (.arr (Json.obj kvs0 :: rest)) row col with
              | ok w => exact ⟨w, rfl⟩
              | error e =>
                  exfalso
                  simp only [autoFormatData, hrows] at hres
                  cases hres
          | null => exact ⟨none, rfl⟩
          | bool b => exact ⟨none, rfl⟩
          | int n => exact ⟨none, rfl⟩
          | str s => exact ⟨none, rfl⟩
          | arr ys => exact ⟨none, rfl⟩

/-- One FORMAT step returns normally on safe contents. -/
lemma fmtStep_safe (ids : Nat → String) (acc : FmtAcc) (c : Option Json)
    (h : contentSafe c = true) :
    ∃ acc1, fmtStep ids acc c = .ok acc1 := by
  cases c with
  | none => exact ⟨acc, rfl⟩
  | some j =>
      cases j with
      | null => exact ⟨acc, rfl⟩
      | bool b => cases b <;> exact ⟨acc, rfl⟩
      | int n =>
          by_cases ht : (Json.int n).truthy
          · exact ⟨acc, by simp [fmtStep, ht]⟩
          · exact ⟨acc, by simp [fmtStep, ht]⟩
      | str s =>
          by_cases ht : (Json.str s).truthy
          · simp only [contentSafe] at h
            by_cases hb : strContains s "component" && strContains s "data"
            · exact ⟨acc, by simp [fmtStep, ht, hb]⟩
            · have hd : strContains s "data" = false := by
                rcases Bool.or_eq_true_iff.mp h with h2 | h2
                · exact absurd h2 hb
                · simpa using h2
              refine ⟨acc, ?_⟩
              simp [fmtStep, ht, hb, hd]
          · exact ⟨acc, by simp [fmtStep, ht]⟩
      | arr xs =>
          by_cases ht : (Json.arr xs).truthy
          · simp only [contentSafe] at h
            by_cases hb : listHasStr xs "component" && listHasStr xs "data"
            · exact ⟨acc, by simp [fmtStep, ht, hb]⟩
            · have hd : listHasStr xs "data" = false := by
                rcases Bool.or_eq_true_iff.mp h with h2 | h2
                · exact absurd h2 hb
                · simpa using h2
              refine ⟨acc, ?_⟩
              simp [fmtStep, ht, hb, hd]
          · exact ⟨acc, by simp [fmtStep, ht]⟩
      | obj kvs =>
          by_cases ht : (Json.obj kvs).truthy
          · by_cases h1 : hasKey kvs "component" && hasKey kvs "data"
            · cases hres : fmtStep ids acc (some (Json.obj kvs)) with
              | ok acc1 => exact ⟨acc1, rfl⟩
              | error e =>
                  exfalso
                  simp [fmtStep, ht, h1] at hres
            · by_cases h2 : hasKey kvs "data" && !(Json.getD kvs "error" .null).truthy
              · have hsafe : autoSafe (Json.getD kvs "data" .null) = true := by
                  simp only [contentSafe, h1, if_false, h2, if_true] at h
                  exact h
                obtain ⟨w, hw⟩ := autoFormatData_safe (ids acc.next_id)
                  (Json.getD kvs "data" .null) acc.widget_row acc.widget_col hsafe
                cases hres : fmtStep ids acc (some (Json.obj kvs)) with
                | ok acc1 => exact ⟨acc1, rfl⟩
                | error e =>
                    exfalso
                    cases w with
                    | none => simp [fmtStep, ht, h1, h2, hw] at hres
                    | some w2 => simp [fmtStep, ht, h1, h2, hw] at hres
              · exact ⟨acc, by simp [fmtStep, ht, h1, h2]⟩
          · exact ⟨acc, by simp [fmtStep, ht]⟩

/-- The FORMAT loop returns normally when every message is safe. -/
lemma formatFold_safe (ids : Nat → String) :
    ∀ (msgs : List Msg) (acc : FmtAcc),
      (∀ m ∈ msgs, msgSafe m = true) →
      ∃ acc1, formatFold ids msgs acc = .ok acc1 := by
  intro msgs
  induction msgs with
  | nil => exact fun acc _ => ⟨acc, rfl⟩
  | cons m rest ih =>
      intro acc h
      cases m with
      | tool c =>
          obtain ⟨acc2, h2⟩ := fmtStep_safe ids acc c (h (.tool c) (by simp))
          obtain ⟨acc1, h1⟩ := ih acc2 fun x hx => h x (by simp [hx])
          exact ⟨acc1, by simp [formatFold, h2, h1]⟩
      | system s => exact ih acc fun x hx => h x (by simp [hx])
      | human s => exact ih acc fun x hx => h x (by simp [hx])
      | ai s tcs =>
          obtain ⟨acc1, h1⟩ := ih acc fun x hx => h x (by simp [hx])
          exact ⟨acc1, by simp [formatFold, h1]⟩

/-- The FORMAT node returns normally when every message is safe. -/
lemma formatOutputNode_safe (ids : Nat → String) (msgs : List Msg)
    (h : ∀ m ∈ msgs, msgSafe m = true) :
    ∃ ws fm, formatOutputNode ids msgs = .ok (ws, fm) := by
  obtain ⟨acc1, h1⟩ := formatFold_safe ids msgs
    { widgets := [], widget_row := 1, widget_col := 1, next_id := 0 } h
  exact ⟨acc1.widgets, finalMessageFrom msgs.reverse, by simp [formatOutputNode, h1]⟩

/-- The routing test after appending an AI message sees that message. -/
lemma lastHasToolCalls_concat (msgs : List Msg) (c : String) (tcs : List ToolCallReq) :
    lastHasToolCalls (msgs ++ [.ai c tcs]) = !tcs.isEmpty := by
  unfold lastHasToolCalls
  rw [List.getLast?_concat]

/-- C7: control-loop routing and termination.  With a scripted backend
that requests tools on its first two invocations and answers in plain
text on its third, the compiled graph visits exactly
`agent, tools, agent, tools, agent, format, END`: two tool-execution
rounds, and the FORMAT stage is reached from the third reasoning step,
after which the run terminates.  Moreover the routing decision after a
reasoning step is `tools` exactly when the last message carries tool
calls. -/
theorem C7_control_loop (ids : Nat → String) (execTool : ToolCallReq → Option Json)
    (init : List Msg) (c1 c2 c3 : String) (tcs1 tcs2 : List ToolCallReq)
    (h1 : tcs1 ≠ []) (h2 : tcs2 ≠ [])
    (hinit : ∀ m ∈ init, msgSafe m = true)
    (hexec : ∀ tc, contentSafe (execTool tc) = true) :
    ((runGraphScript ids execTool [(c1, tcs1), (c2, tcs2), (c3, [])] init).map
        fun out => out.1)
      = some [.agent, .tools, .agent, .tools, .agent, .fmt, .stop] ∧
    (∀ msgs : List Msg, shouldContinue msgs = .tools ↔ lastHasToolCalls msgs = true) := by
  constructor
  · have e1 : shouldContinue (init ++ [.ai c1 tcs1]) = .tools := by
      unfold shouldContinue
      rw [lastHasToolCalls_concat]
      simp [h1]
    have e2 : shouldContinue ((init ++ [.ai c1 tcs1]
        ++ tcs1.map fun tc => Msg.tool (execTool tc)) ++ [.ai c2 tcs2]) = .tools := by
      unfold shouldContinue
      rw [lastHasToolCalls_concat]
      simp [h2]
    have e3 : shouldContinue (((init ++ [.ai c1 tcs1]
        ++ tcs1.map fun tc => Msg.tool (execTool tc)) ++ [.ai c2 tcs2]
        ++ tcs2.map fun tc => Msg.tool (execTool tc)) ++ [.ai c3 []]) = .fmt := by
      unfold shouldContinue
      rw [lastHasToolCalls_concat]
      simp
    have hsafe : ∀ m ∈ ((init ++ [.ai c1 tcs1]
        ++ tcs1.map fun tc => Msg.tool (execTool tc)) ++ [.ai c2 tcs2]
        ++ tcs2.map fun tc => Msg.tool (execTool tc)) ++ [.ai c3 []],
        msgSafe m = true := by
      intro m hm
      simp only [List.mem_append, List.mem_singleton, List.mem_map] at hm
      rcases hm with ((((hm | hm) | ⟨tc, -, hm⟩) | hm) | ⟨tc, -, hm⟩) | hm
      · exact hinit m hm
      · rw [hm]; rfl
      · rw [← hm]; exact hexec tc
      · rw [hm]; rfl
      · rw [← hm]; exact hexec tc
      · rw [hm]; rfl
    obtain ⟨ws, fm, hfm⟩ := formatOutputNode_safe ids _ hsafe
    simp only [runGraphScript, e1, e2, e3, hfm]
    rfl
  · intro msgs
    unfold shouldContinue
    by_cases h : lastHasToolCalls msgs <;> simp [h]

/-- Witness for C7: a concrete two-tool-calls-then-text script against a
plain seed produces exactly the expected node trace. -/
theorem C7_control_loop_witness :
    ((runGraphScript c2Ids (fun _ => none)
        [("think1", [⟨"t1"⟩]), ("think2", [⟨"t2"⟩]), ("done", [])]
        [.system "sys", .human "hello"]).map fun out => out.1)
      = some [.agent, .tools, .agent, .tools, .agent, .fmt, .stop] :=
  (C7_control_loop c2Ids (fun _ => none) [.system "sys", .human "hello"]
    "think1" "think2" "done" [⟨"t1"⟩] [⟨"t2"⟩]
    (by simp) (by simp) (by decide)
    (fun _ => rfl)).1

/-!  Claim C10: silent truncation in auto-classification.  -/

/-- Truncating a string to `n` characters yields at most `n` characters. -/
lemma take_length_le (s : String) (n : Nat) : (s.take n).length ≤ n := by
  rw [String.take_eq]
  exact List.length_take_le n s.1

/-- The cell row `auto_format_data` builds for one list item (total
companion of the partial loop body; `[]` for a non-dict item, on which
the code raises instead). -/
def rowCells (columns : List String) (item : Json) : List String :=
  match item with
  | .obj m => columns.map fun c => (pyStr (Json.getD m c (.str ""))).take 50
  | _ => []

/-- Computing the cells of one dict row. -/
lemma optionMapList_tableCell (m : List (String × Json)) (columns : List String) :
    optionMapList (fun c => tableCell c (.obj m)) columns
      = some (rowCells columns (.obj m)) := by
  induction columns with
  | nil => rfl
  | cons c rest ih =>
      rw [show optionMapList (fun c => tableCell c (.obj m)) (c :: rest)
          = do
              let b ← tableCell c (.obj m)
              let bs ← optionMapList (fun c => tableCell c (.obj m)) rest
              pure (b :: bs) from rfl]
      rw [ih]
      rfl

/-- Computing all rows over items that are dicts. -/
lemma optionMapList_rows (columns : List String) :
    ∀ (items : List Json), (∀ item ∈ items, ∃ m, item = .obj m) →
      optionMapList (fun item => optionMapList (fun c => tableCell c item) columns) items
        = some (items.map (rowCells columns)) := by
  intro items
  induction items with
  | nil => intro _; rfl
  | cons item rest ih =>
      intro h
      obtain ⟨m, hm⟩ := h item (by simp)
      subst hm
      rw [show optionMapList (fun item => optionMapList (fun c => tableCell c item) columns)
            (Json.obj m :: rest)
          = do
              let b ← optionMapList (fun c => tableCell c (.obj m)) columns
              let bs ← optionMapList
                (fun item => optionMapList (fun c => tableCell c item) columns) rest
              pure (b :: bs) from rfl]
      rw [optionMapList_tableCell, ih fun x hx => h x (by simp [hx])]
      rfl

/-- C10: auto-classification truncates silently.  A list-of-dicts payload
becomes a full-width `Table` whose columns are the first 10 keys of the
first element, whose rows are the first 20 list elements, and whose cells
are `str(value)` truncated to 50 characters; a dict payload with no
numeric values becomes a property `Table` with the first 15 entries and
each value truncated to 100 characters. -/
theorem C10_silent_truncation :
    (∀ (wid : String) (row col : Nat) (kvs0 : List (String × Json)) (rest : List Json),
      (∀ item ∈ (Json.obj kvs0 :: rest).take 20, ∃ m, item = Json.obj m) →
      autoFormatData wid (.arr (Json.obj kvs0 :: rest)) row col
        = .ok (some
            { id := wid, component := .str "Table"
              position := { column := 1, row := row, width := 12, height := 2 }
              data := .obj [("columns", .arr ((((kvs0.map (·.1)).take 10)).map .str)),
                            ("rows", .arr ((((Json.obj kvs0 :: rest).take 20).map
                              (rowCells ((kvs0.map (·.1)).take 10))).map
                                fun r => .arr (r.map .str)))]
              config := .obj [("title", .str "Results")] }) ∧
      ((kvs0.map (·.1)).take 10).length ≤ 10 ∧
      (((Json.obj kvs0 :: rest).take 20).map (rowCells ((kvs0.map (·.1)).take 10))).length ≤ 20 ∧
      (∀ r ∈ ((Json.obj kvs0 :: rest).take 20).map (rowCells ((kvs0.map (·.1)).take 10)),
        ∀ cell ∈ r, cell.length ≤ 50)) ∧
    (∀ (wid : String) (row col : Nat) (kvs : List (String × Json)),
      (∀ kv ∈ kvs, kv.2.isNumber = false) →
      autoFormatData wid (.obj kvs) row col
        = .ok (some
            { id := wid, component := .str "Table"
              position := { column := 1, row := row, width := 12, height := 2 }
              data := .obj [("columns", .arr [.str "Property", .str "Value"]),
                            ("rows", .arr ((kvs.take 15).map fun kv =>
                              .arr [.str kv.1, .str ((pyStr kv.2).take 100)]))]
              config := .obj [("title", .str "Details")] }) ∧
      (kvs.take 15).length ≤ 15 ∧
      (∀ kv ∈ kvs.take 15, ((pyStr kv.2).take 100).length ≤ 100)) := by
  constructor
  · intro wid row col kvs0 rest hobj
    have hrows := optionMapList_rows ((kvs0.map (·.1)).take 10)
      ((Json.obj kvs0 :: rest).take 20) hobj
    refine ⟨?_, List.length_take_le 10 _, ?_, ?_⟩
    · simp only [autoFormatData, hrows]
    · rw [List.length_map]
      exact List.length_take_le 20 _
    · intro r hr cell hcell
      obtain ⟨item, -, hitem⟩ := List.mem_map.mp hr
      subst hitem
      cases item with
      | obj m =>
          simp only [rowCells] at hcell
          obtain ⟨c, -, hc⟩ := List.mem_map.mp hcell
          rw [← hc]
          exact take_length_le _ 50
      | null => simp [rowCells] at hcell
      | bool b => simp [rowCells] at hcell
      | int n => simp [rowCells] at hcell
      | str s => simp [rowCells] at hcell
      | arr ys => simp [rowCells] at hcell
  · intro wid row col kvs hnum
    have hfil : kvs.filter (fun kv => kv.2.isNumber) = [] := by
      rw [List.filter_eq_nil_iff]
      intro kv hkv
      simp [hnum kv hkv]
    refine ⟨?_, List.length_take_le 15 _, ?_⟩
    · simp [autoFormatData, hfil]
    · intro kv _
      exact take_length_le _ 100

/-- Witness for C10: both auto-classification branches succeed at
concrete payloads (a one-element list of dicts, and a dict with a
non-numeric value). -/
theorem C10_silent_truncation_witness :
    (autoFormatData "w" (.arr [Json.obj [("a", Json.str "x")]]) 1 1).toOption.isSome = true ∧
    (autoFormatData "w2" (.obj [("b", Json.str "y")]) 2 3).toOption.isSome = true := by
  obtain ⟨ht, -, -, -⟩ := C10_silent_truncation.1 "w" 1 1 [("a", Json.str "x")] []
    (by intro item hit
        refine ⟨[("a", Json.str "x")], ?_⟩
        simpa using hit)
  obtain ⟨hd, -, -⟩ := C10_silent_truncation.2 "w2" 2 3 [("b", Json.str "y")]
    (by decide)
  constructor
  · rw [ht]; rfl
  · rw [hd]; rfl

end SeeFast
